import Mathlib

/-!
Shallow embedding of `src/purnching_music_program.ino` (jump-to-sound trigger
loop for a Spresense board with an ADXL345 accelerometer).

The embedding follows the source line by line:

* `Constants` (source lines 6-33) become plain definitions.
* `AccelerometerManager`'s mutable fields become the `AccState` structure;
  `detectJump` (lines 49-74) becomes a pure step function from a state and the
  current observation `(z, now)` to the next state together with the returned
  `Bool`.  The raw axis reading is an `int16_t`; the statement `z = abs(z)`
  promotes to `int` and narrows back to `int16_t`, which is modelled by
  `absInt16` (so `abs(-32768)` evaluates to `-32768`, as gcc narrows by
  wrapping).  `millis()` timestamps are modelled as unbounded monotone
  milliseconds; the `unsigned long` subtraction `current_time - last_jump_time`
  is modelled by `elapsedU32`, which reduces both operands and the difference
  modulo 2^32 exactly as 32-bit unsigned arithmetic does.
* `JumpSoundSystem::calculateScaleIndex` (lines 244-259) uses Arduino
  `constrain` and `map`; `map` computes in `long` integer arithmetic with C
  truncating division (`Int.tdiv`).  The intermediate `float mapped` holds a
  small integer exactly, so `(int)round(mapped)` is the identity and the
  function is the integer `map` value.
* `JumpSoundSystem::update` (lines 228-241) becomes `updateStep`, which feeds
  one observation to the detector and, on a jump, records the value passed to
  `calculateScaleIndex` and to the log before the orchestrator calls
  `resetPeakAcceleration`.
* `AudioManager` (lines 141-206) is modelled as a trace generator: every
  device / storage call becomes an `AudioAct` in an emitted list.  The SD and
  audio collaborators are an `AudioEnv` of oracles (WAV-parser result, open
  success, per-call read sizes and write successes).  The streaming loop of
  `playWavFile` recurses on an explicit fuel argument (a model artifact: the
  C loop has no fuel; `StreamRes.outOfFuel` marks runs the fuel model cannot
  finish and is excluded where a theorem speaks about complete executions).
  `remain_size` is a `uint32_t`, so its decrement wraps modulo 2^32.
-/

/-- 2^32: modulus of `unsigned long` / `uint32_t` / `size_t` on the target. -/
def U32 : Nat := 4294967296

/-- Source line 19: `constexpr int16_t JUMP_THRESHOLD = 80`. -/
def JUMP_THRESHOLD : Int := 80

/-- Source line 20: `constexpr int16_t MIN_ACCELERATION = 80`. -/
def MIN_ACCELERATION : Int := 80

/-- Source line 21: `constexpr int16_t MAX_ACCELERATION = 400`. -/
def MAX_ACCELERATION : Int := 400

/-- Source line 22: `constexpr unsigned long JUMP_COOLDOWN = 500`. -/
def JUMP_COOLDOWN : Nat := 500

/-- Source line 25: `constexpr size_t BUFFER_SIZE = 1024`. -/
def BUFFER_SIZE : Nat := 1024

/-- Source line 28: `constexpr int SCALE_SIZE = 8`. -/
def SCALE_SIZE : Int := 8

/-- Source lines 29-32: the eight WAV file names of the scale. -/
def SCALE_FILES : List String :=
  ["C3.wav", "D3.wav", "E3.wav", "F3.wav", "G3.wav", "A3.wav", "B3.wav", "C4.wav"]

/-- Narrowing an `int` value back into `int16_t` (gcc two's-complement wrap). -/
def wrap16 (x : Int) : Int := (x + 32768) % 65536 - 32768

/-- Source line 51: `z = abs(z)` on an `int16_t`.  The Arduino `abs` computes
in `int` and the assignment narrows back to `int16_t`, so every value of
magnitude at most 32767 becomes its absolute value while `-32768` stays
`-32768`. -/
def absInt16 (z : Int) : Int := wrap16 (if z > 0 then z else -z)

/-- Source line 55: the `unsigned long` difference
`current_time - last_jump_time`, i.e. 32-bit wrapping subtraction of the two
timestamps (modelled on unbounded monotone milliseconds). -/
def elapsedU32 (now last : Nat) : Nat := (now % U32 + U32 - last % U32) % U32

/-- Mutable state of `AccelerometerManager` (source lines 37-40). -/
structure AccState where
  peak_acceleration : Int
  is_jumping : Bool
  last_jump_time : Nat
  deriving DecidableEq

/-- The initial member values of `AccelerometerManager` (source lines 38-40). -/
def initAcc : AccState := { peak_acceleration := 0, is_jumping := false, last_jump_time := 0 }

/-- Source lines 49-74, `AccelerometerManager::detectJump`, as a pure step on
the state and one observation: `zRaw` is the raw Z-axis reading and `now` the
`millis()` value.  Returns the successor state and the returned `bool`. -/
def detectJump (s : AccState) (zRaw : Int) (now : Nat) : AccState × Bool :=
  let z := absInt16 zRaw
  if JUMP_THRESHOLD < z ∧ s.is_jumping = false ∧
      JUMP_COOLDOWN < elapsedU32 now s.last_jump_time then
    ({ peak_acceleration := z, is_jumping := true, last_jump_time := now }, true)
  else
    let s1 := if z < JUMP_THRESHOLD ∧ s.is_jumping = true then
      { s with is_jumping := false, peak_acceleration := 0 } else s
    let s2 := if s1.is_jumping = true ∧ s1.peak_acceleration < z then
      { s1 with peak_acceleration := z } else s1
    (s2, false)

/-- Source lines 76-78: `getPeakAcceleration`. -/
def getPeakAcceleration (s : AccState) : Int := s.peak_acceleration

/-- Source lines 80-82: `resetPeakAcceleration` zeroes `peak_acceleration`. -/
def resetPeakAcceleration (s : AccState) : AccState := { s with peak_acceleration := 0 }

/-- Arduino `constrain(x, lo, hi)`. -/
def constrain (x lo hi : Int) : Int := if x < lo then lo else if hi < x then hi else x

/-- Arduino `map(x, in_min, in_max, out_min, out_max)`: `long` integer
arithmetic with C truncating division. -/
def arduinoMap (x in_min in_max out_min out_max : Int) : Int :=
  ((x - in_min) * (out_max - out_min)).tdiv (in_max - in_min) + out_min

/-- Source lines 244-259, `JumpSoundSystem::calculateScaleIndex`.  The source
assigns the `long` result of `map` to a `float` and returns
`(int)round(mapped)`; since the `map` value here is an integer in `[0, 7]`,
the float conversion is exact and `round` is the identity, so the function is
the clamped integer `map` value. -/
def calculateScaleIndex (acceleration : Int) : Int :=
  let a := constrain acceleration MIN_ACCELERATION MAX_ACCELERATION
  arduinoMap a MIN_ACCELERATION MAX_ACCELERATION 0 (SCALE_SIZE - 1)

/-- Source lines 228-241, the jump branch of `JumpSoundSystem::update`, for one
observation.  On a detected jump the orchestrator reads `getPeakAcceleration`
(passing it to `calculateScaleIndex` and to the serial log) and then calls
`resetPeakAcceleration`.  Returns the post-iteration state and, when a jump was
emitted, `some (reportedPeak, scaleIndex)`. -/
def updateStep (s : AccState) (zRaw : Int) (now : Nat) : AccState × Option (Int × Int) :=
  let r := detectJump s zRaw now
  if r.2 then
    let reported := getPeakAcceleration r.1
    let idx := calculateScaleIndex reported
    (resetPeakAcceleration r.1, some (reported, idx))
  else
    (r.1, none)

/-- Successive orchestrator iterations over a list of observations, recording
for each iteration the emitted event (reported peak and scale index), if any. -/
def updTrace (s : AccState) : List (Int × Nat) → List (Option (Int × Int))
  | [] => []
  | o :: rest =>
    let r := updateStep s o.1 o.2
    r.2 :: updTrace r.1 rest

/-- Successive `detectJump` observations, recording the `millis()` timestamps
of the observations on which the detector returned `true`. -/
def detectEvents (s : AccState) : List (Int × Nat) → List Nat
  | [] => []
  | o :: rest =>
    let r := detectJump s o.1 o.2
    if r.2 then o.2 :: detectEvents r.1 rest else detectEvents r.1 rest

/-- The detector states visited while feeding a list of observations to
`detectJump`: the initial state followed by the state after each observation. -/
def detectStates (s : AccState) : List (Int × Nat) → List AccState
  | [] => [s]
  | o :: rest => s :: detectStates (detectJump s o.1 o.2).1 rest

/-- Relation between consecutive detector states asserted by the peak
invariant: from an Active state, either the successor is still Active and the
peak did not decrease, or the successor is Idle and the peak is exactly 0. -/
def peakStepOk (s1 s2 : AccState) : Prop :=
  s1.is_jumping = true →
    (s2.is_jumping = true → s1.peak_acceleration ≤ s2.peak_acceleration) ∧
    (s2.is_jumping = false → s2.peak_acceleration = 0)

/-- The spec's real-valued linear interpolation of the clamped peak from
`[MIN_ACCELERATION, MAX_ACCELERATION]` onto `[0, SCALE_SIZE - 1]`. -/
def specInterp (a : Int) : ℚ :=
  ((constrain a MIN_ACCELERATION MAX_ACCELERATION - MIN_ACCELERATION : Int) : ℚ) *
    ((SCALE_SIZE - 1 : Int) : ℚ) / ((MAX_ACCELERATION - MIN_ACCELERATION : Int) : ℚ)

/-- Modelled from the spec: `ScaleMapper` with the rounding rule the spec
asserts ("0.5 rounds away from zero", i.e. positive halves round up; the
interpolated value is never negative, so this is floor of the value plus one
half).  Defined only to be compared with `calculateScaleIndex`. -/
def specMapToScale (a : Int) : Int := ⌊specInterp a + 1 / 2⌋

/-- One observable device / storage call made by `AudioManager`. -/
inductive AudioAct where
  | devStop : AudioAct
  | devStart : AudioAct
  | parseFile : String → AudioAct
  | fileOpen : String → AudioAct
  | seek : Nat → AudioAct
  | read : Nat → Nat → AudioAct
  | write : Nat → Nat → AudioAct
  | close : AudioAct
  deriving DecidableEq

/-- How the streaming loop of `playWavFile` ended.  `outOfFuel` is a model
artifact: it marks runs the explicit fuel could not finish (the C loop has no
fuel and simply keeps iterating). -/
inductive StreamRes where
  | success : StreamRes
  | readError : StreamRes
  | writeError : StreamRes
  | outOfFuel : StreamRes
  deriving DecidableEq

/-- Outcome of `AudioManager::playSound`, one constructor per early return. -/
inductive PlayOutcome where
  | invalidIndex : PlayOutcome
  | parseError : PlayOutcome
  | openError : PlayOutcome
  | streamed : StreamRes → PlayOutcome
  deriving DecidableEq

/-- Oracles for the external collaborators of `AudioManager`: the WAV parser
result (`data_offset`, `data_size`), whether `sd.open` succeeds, the number of
bytes returned by the k-th `file.read`, and whether the k-th
`audio->writeFrames` call succeeds. -/
structure AudioEnv where
  parseChunk : String → Option (Nat × Nat)
  sdOpen : String → Bool
  reads : Nat → Nat
  writes : Nat → Bool

/-- Source lines 141-145, `AudioManager::resetAudioPlayer`: stop then start the
player. -/
def resetAudioPlayer : List AudioAct := [AudioAct.devStop, AudioAct.devStart]

/-- The `while (remain_size > 0)` loop of `playWavFile` (source lines
186-202).  `remain` is the `uint32_t` byte counter, `k` counts the read/write
calls (the oracle index), `pos` is the file cursor.  Each iteration reads up to
`BUFFER_SIZE` bytes; a zero-byte read breaks with a read error; otherwise
`remain` is decremented with 32-bit wrap, the chunk is written, and a failing
write breaks.  `fuel` bounds the recursion (model artifact). -/
def streamLoop (reads : Nat → Nat) (writes : Nat → Bool) :
    Nat → Nat → Nat → Nat → List AudioAct × StreamRes
  | 0, remain, _, _ =>
    if remain = 0 then ([], StreamRes.success) else ([], StreamRes.outOfFuel)
  | fuel + 1, remain, k, pos =>
    if remain = 0 then ([], StreamRes.success)
    else
      let n := reads k % U32
      if n = 0 then ([AudioAct.read pos 0], StreamRes.readError)
      else
        let remain' := (remain + U32 - n) % U32
        if writes k = false then
          ([AudioAct.read pos n, AudioAct.write pos n], StreamRes.writeError)
        else
          let r := streamLoop reads writes fuel remain' (k + 1) (pos + n)
          (AudioAct.read pos n :: AudioAct.write pos n :: r.1, r.2)

/-- Source lines 180-206, `AudioManager::playWavFile`: seek to the payload,
stop the player, run the chunked streaming loop, then unconditionally start the
player and close the file. -/
def playWavFile (reads : Nat → Nat) (writes : Nat → Bool)
    (data_offset data_size fuel : Nat) : List AudioAct × StreamRes :=
  let r := streamLoop reads writes fuel (data_size % U32) 0 data_offset
  ([AudioAct.seek data_offset, AudioAct.devStop] ++ r.1 ++
    [AudioAct.devStart, AudioAct.close], r.2)

/-- Source lines 147-176, `AudioManager::playSound`: reset the player (stop and
start), validate the index, parse the WAV header, open the file, stream it via
`playWavFile`, and close the file once more. -/
def playSound (env : AudioEnv) (scale_index : Int) (fuel : Nat) :
    List AudioAct × PlayOutcome :=
  if scale_index < 0 ∨ SCALE_SIZE ≤ scale_index then
    (resetAudioPlayer, PlayOutcome.invalidIndex)
  else
    let name := SCALE_FILES.getD scale_index.toNat ""
    let filepath := "/mnt/sd0/" ++ name
    match env.parseChunk filepath with
    | none => (resetAudioPlayer ++ [AudioAct.parseFile filepath], PlayOutcome.parseError)
    | some (off, size) =>
      if env.sdOpen name = false then
        (resetAudioPlayer ++ [AudioAct.parseFile filepath, AudioAct.fileOpen name],
          PlayOutcome.openError)
      else
        let r := playWavFile env.reads env.writes off size fuel
        (resetAudioPlayer ++ [AudioAct.parseFile filepath, AudioAct.fileOpen name] ++
          r.1 ++ [AudioAct.close], PlayOutcome.streamed r.2)

/-- File positions of the `read` calls in a trace, in order. -/
def readPositions (l : List AudioAct) : List Nat :=
  l.filterMap fun a => match a with | AudioAct.read p _ => some p | _ => none

/-- File positions of the `write` calls in a trace, in order. -/
def writePositions (l : List AudioAct) : List Nat :=
  l.filterMap fun a => match a with | AudioAct.write p _ => some p | _ => none

/-- The `uint32_t` remainder counter before each loop iteration, assuming the
k-th read returns `reads k` bytes: `remAt reads remain k j` is the counter
value before iteration `j` of a loop that starts with counter `remain` at
oracle index `k` (truncated subtraction; meaningful while reads stay within
the remainder, which is exactly the precondition under which it is used). -/
def remAt (reads : Nat → Nat) (remain k : Nat) : Nat → Nat
  | 0 => remain
  | j + 1 => remAt reads remain k j - reads (k + j) % U32

/-- Read oracle that always reports end-of-file. -/
def zeroReads : Nat → Nat := fun _ => 0

/-- Write oracle that always succeeds. -/
def okWrites : Nat → Bool := fun _ => true

/-- Read oracle that returns a full 1024-byte buffer on the first call and
end-of-file afterwards. -/
def wrapReads : Nat → Nat := fun k => if k = 0 then 1024 else 0

/-- The sample sequence of the spec's scenario, observed at 100 ms cadence
starting late enough that the initial cooldown (from `last_jump_time = 0`) has
expired. -/
def c1obs : List (Int × Nat) := [(50, 600), (50, 700), (120, 800), (150, 900), (60, 1000)]

/-- An environment whose storage collaborators all fail (used for concrete
instances; `playSound` with an invalid index never consults it). -/
def envA : AudioEnv :=
  { parseChunk := fun _ => none, sdOpen := fun _ => false,
    reads := zeroReads, writes := okWrites }

/-! ## Helper lemmas -/

/-- For int16 readings other than -32768, the narrowed `abs` is the absolute
value. -/
theorem absInt16_eq_abs (z : Int) (h1 : -32768 < z) (h2 : z < 32768) :
    absInt16 z = |z| := by
  simp only [absInt16, wrap16]
  rcases abs_cases z with ⟨he, _⟩ | ⟨he, _⟩ <;> rw [he] <;> split <;> omega

/-- As long as the 32-bit clock has not wrapped since `last`, the unsigned
difference is the true difference. -/
theorem elapsedU32_eq_sub (now last : Nat) (h : last ≤ now) (h2 : now - last < U32) :
    elapsedU32 now last = now - last := by
  simp only [elapsedU32, U32] at *
  omega

/-- With a monotone clock, an unsigned elapsed value above the cooldown implies
the true elapsed time is above the cooldown. -/
theorem elapsedU32_gap (now last : Nat) (h : last ≤ now)
    (h5 : JUMP_COOLDOWN < elapsedU32 now last) : last + JUMP_COOLDOWN < now := by
  simp only [elapsedU32, U32, JUMP_COOLDOWN] at *
  omega

/-- C truncating division agrees with Euclidean division on nonnegative
dividends (the divisor 320 of `calculateScaleIndex`). -/
theorem tdiv320_eq_ediv (n : Int) (h : 0 ≤ n) : n.tdiv 320 = n / 320 := by
  match n, h with
  | Int.ofNat m, _ => rfl

/-- The clamped acceleration lies between the configured bounds. -/
theorem constrain_bounds (a : Int) : 80 ≤ constrain a 80 400 ∧ constrain a 80 400 ≤ 400 := by
  simp only [constrain]
  split_ifs <;> omega

/-- Closed form of `calculateScaleIndex`: Euclidean (here equal to truncating)
integer division of the scaled clamped value. -/
theorem calculateScaleIndex_eq (a : Int) :
    calculateScaleIndex a = (constrain a 80 400 - 80) * 7 / 320 := by
  have hb := constrain_bounds a
  have h : 0 ≤ (constrain a 80 400 - 80) * 7 := by omega
  simp only [calculateScaleIndex, arduinoMap, MIN_ACCELERATION, MAX_ACCELERATION, SCALE_SIZE]
  norm_num
  exact tdiv320_eq_ediv _ h

/-! ## C5: rounding rule of the scale mapping -/

/-- C5 counterexample: at peak 240 the exact interpolated value is 3.5; the
spec's round-half-away-from-zero rule yields 4, but `calculateScaleIndex`
yields 3 (Arduino `map` computes in `long` integer arithmetic, so the value is
already truncated before `round` ever runs). -/
theorem C5_round_half_counterexample :
    specMapToScale 240 = 4 ∧ calculateScaleIndex 240 = 3 ∧ (3 : Int) ≠ 4 := by
  refine ⟨?_, by decide, by decide⟩
  have h : specInterp 240 = 7 / 2 := by
    norm_num [specInterp, constrain, MIN_ACCELERATION, MAX_ACCELERATION, SCALE_SIZE]
  rw [specMapToScale, h]
  norm_num

/-- C5 (amended): for every integer peak, `calculateScaleIndex` equals the
real-valued linear interpolation of the clamped peak from
`[MIN_ACCELERATION, MAX_ACCELERATION]` onto `[0, SCALE_SIZE - 1]` rounded
DOWN (floor), not rounded to nearest; in particular the midpoint 240 maps
to 3, not 4. -/
theorem C5_scale_is_floor_of_interpolation (a : Int) :
    calculateScaleIndex a = ⌊specInterp a⌋ := by
  rw [calculateScaleIndex_eq]
  have key : ⌊(((constrain a 80 400 - 80) * 7 : Int) : ℚ) / ((320 : Nat) : ℚ)⌋
      = (constrain a 80 400 - 80) * 7 / ((320 : Nat) : Int) :=
    Rat.floor_intCast_div_natCast _ 320
  have hs : specInterp a = (((constrain a 80 400 - 80) * 7 : Int) : ℚ) / ((320 : Nat) : ℚ) := by
    simp only [specInterp, MIN_ACCELERATION, MAX_ACCELERATION, SCALE_SIZE]
    push_cast
    ring
  rw [hs, key]
  norm_num

/-! ## C6: output range and clamping of the scale mapping -/

/-- C6: for every integer peak the scale index is in `[0, SCALE_SIZE - 1]`,
peaks below `MIN_ACCELERATION` map to 0, peaks above `MAX_ACCELERATION` map to
`SCALE_SIZE - 1`, and the two bounds map to 0 and 7. -/
theorem C6_scale_index_range (a : Int) :
    (0 ≤ calculateScaleIndex a ∧ calculateScaleIndex a ≤ SCALE_SIZE - 1) ∧
    (a < MIN_ACCELERATION → calculateScaleIndex a = 0) ∧
    (MAX_ACCELERATION < a → calculateScaleIndex a = SCALE_SIZE - 1) ∧
    calculateScaleIndex MIN_ACCELERATION = 0 ∧
    calculateScaleIndex MAX_ACCELERATION = SCALE_SIZE - 1 := by
  refine ⟨?_, ?_, ?_, by decide, by decide⟩ <;>
    simp only [calculateScaleIndex_eq, constrain, MIN_ACCELERATION, MAX_ACCELERATION, SCALE_SIZE] <;>
    split_ifs <;> omega

/-- C6 witness: a below-range peak maps to 0 and an above-range peak maps to
the top index. -/
theorem C6_scale_index_range_witness :
    calculateScaleIndex (-5) = 0 ∧ calculateScaleIndex 10000 = SCALE_SIZE - 1 :=
  ⟨(C6_scale_index_range (-5)).2.1 (by decide), (C6_scale_index_range 10000).2.2.1 (by decide)⟩

/-! ## C1: the scenario sequence [50, 50, 120, 150, 60] -/

/-- C1 counterexample: on the scenario sequence the one emitted event (third
sample) reports peak 120 — the triggering sample itself — not 150: the
orchestrator reads `getPeakAcceleration` immediately after the trigger, before
the later sample 150 is ever observed. -/
theorem C1_reported_peak_counterexample :
    (updTrace initAcc c1obs).getD 2 none = some (120, 0) ∧ ((120 : Int) ≠ 150) := by
  decide

/-- C1 (amended): the sequence `[50, 50, 120, 150, 60]` (observed at a 100 ms
cadence after the initial cooldown has expired) yields exactly one jump event,
on the third sample, and the peak value the orchestrator passes to
`calculateScaleIndex` and logs for that event is 120 (the trigger-instant
sample, mapping to scale index 0); the in-jump maximum 150 is accumulated
afterwards and discarded on landing. -/
theorem C1_single_event_trace :
    updTrace initAcc c1obs = [none, none, some (120, 0), none, none] := by
  decide

/-! ## C3: the trigger condition -/

/-- C3 counterexample: for the raw reading -32768 (absolute value 32768, well
above the threshold) in the Idle state with the cooldown long expired, the
detector does NOT fire: `z = abs(z)` on an `int16_t` narrows `abs(-32768)`
back to -32768, which fails the `z > JUMP_THRESHOLD` comparison. -/
theorem C3_trigger_iff_counterexample :
    (detectJump initAcc (-32768) 1000).2 = false ∧
    JUMP_THRESHOLD < |(-32768 : Int)| ∧
    initAcc.is_jumping = false ∧
    JUMP_COOLDOWN < 1000 - initAcc.last_jump_time := by
  refine ⟨by decide, ?_, by decide, by decide⟩
  rw [abs_of_neg (by norm_num)]
  decide

/-- C3 (amended): for raw readings other than -32768 (where the `int16_t`
narrowing of `abs` flips the sign), and as long as the 32-bit clock has not
wrapped since the last trigger, `detectJump` returns true exactly when the
absolute sample value is strictly above `JUMP_THRESHOLD`, the state is Idle,
and strictly more than `JUMP_COOLDOWN` ms have elapsed since
`last_jump_time`; on a trigger the state becomes Active with
`last_jump_time = now` and peak equal to the absolute sample; in every other
case (including the Active→Idle transition) it returns false. -/
theorem C3_trigger_iff (s : AccState) (z : Int) (now : Nat)
    (hz1 : -32768 < z) (hz2 : z < 32768)
    (hm : s.last_jump_time ≤ now) (hw : now - s.last_jump_time < U32) :
    ((detectJump s z now).2 = true ↔
      (JUMP_THRESHOLD < |z| ∧ s.is_jumping = false ∧
        JUMP_COOLDOWN < now - s.last_jump_time)) ∧
    ((detectJump s z now).2 = true →
      (detectJump s z now).1.is_jumping = true ∧
      (detectJump s z now).1.last_jump_time = now ∧
      (detectJump s z now).1.peak_acceleration = |z|) := by
  have ha : absInt16 z = |z| := absInt16_eq_abs z hz1 hz2
  have he : elapsedU32 now s.last_jump_time = now - s.last_jump_time :=
    elapsedU32_eq_sub _ _ hm hw
  simp only [detectJump, ha, he]
  split
  · rename_i h
    simpa using h
  · rename_i h
    simpa using h

/-- C3 witness: a concrete trigger (sample 100 at time 600 from the initial
state). -/
theorem C3_trigger_iff_witness : (detectJump initAcc 100 600).2 = true :=
  ((C3_trigger_iff initAcc 100 600 (by decide) (by decide) (by decide) (by decide)).1).mpr
    (by refine ⟨?_, by decide, by decide⟩; rw [abs_of_pos (by norm_num)]; decide)

/-! ## C4: peak monotonicity while Active -/

/-- Every single `detectJump` observation respects the peak invariant: from an
Active state it either stays Active without decreasing the peak or goes Idle
with peak exactly 0. -/
theorem detectJump_peakStepOk (s : AccState) (z : Int) (now : Nat) :
    peakStepOk s (detectJump s z now).1 := by
  simp only [peakStepOk, detectJump]
  intro hj
  split
  · rename_i h
    rw [hj] at h
    simp at h
  · split <;> split <;> simp_all <;> omega

/-- C4 counterexample: the claim quantifies over sequences of operations that
include the orchestrator's per-iteration processing.  The operation sequence
`observe (120, 1000); resetPeakAcceleration` (exactly what
`JumpSoundSystem::update` performs on a triggering sample) leaves the detector
Active throughout, yet the peak drops from 120 (at the instant the state
becomes Active) to 0 — it is not monotonically non-decreasing while Active. -/
theorem C4_orchestrator_reset_counterexample :
    ((detectJump initAcc 120 1000).1.is_jumping = true ∧
      (detectJump initAcc 120 1000).1.peak_acceleration = 120) ∧
    ((resetPeakAcceleration (detectJump initAcc 120 1000).1).is_jumping = true ∧
      (resetPeakAcceleration (detectJump initAcc 120 1000).1).peak_acceleration = 0) ∧
    ¬ ((120 : Int) ≤ 0) := by
  decide

/-- C4 (amended): under detector observations alone (the orchestrator's
defensive post-event `resetPeakAcceleration` excluded — it zeroes the peak
while still Active, see C9), every run satisfies the invariant: between
consecutive states, an Active state is followed either by an Active state with
a peak at least as large, or by an Idle state whose peak is exactly 0. -/
theorem C4_peak_monotone_while_active (s : AccState) (obs : List (Int × Nat)) :
    List.Chain' peakStepOk (detectStates s obs) := by
  induction obs generalizing s with
  | nil => simp [detectStates]
  | cons o rest ih =>
    rw [detectStates, List.chain'_cons']
    refine ⟨?_, ih _⟩
    intro y hy
    have hh : (detectStates (detectJump s o.1 o.2).1 rest).head?
        = some (detectJump s o.1 o.2).1 := by
      cases rest <;> simp [detectStates]
    rw [hh] at hy
    simp only [Option.mem_some_iff] at hy
    rw [← hy] at *
    exact detectJump_peakStepOk s o.1 o.2

/-- C4 witness: the invariant on a concrete jump run. -/
theorem C4_peak_monotone_while_active_witness :
    List.Chain' peakStepOk (detectStates initAcc [(120, 600), (150, 700), (60, 800)]) :=
  C4_peak_monotone_while_active initAcc [(120, 600), (150, 700), (60, 800)]

/-! ## C2: cooldown separation of emitted events -/

/-- What a fired / non-fired `detectJump` observation does to
`last_jump_time`. -/
theorem detectJump_last (s : AccState) (z : Int) (now : Nat) :
    ((detectJump s z now).2 = true →
      (detectJump s z now).1.is_jumping = true ∧
      (detectJump s z now).1.last_jump_time = now ∧
      JUMP_COOLDOWN < elapsedU32 now s.last_jump_time) ∧
    ((detectJump s z now).2 = false →
      (detectJump s z now).1.last_jump_time = s.last_jump_time) := by
  simp only [detectJump]
  split
  · rename_i h
    simpa using h.2.2
  · split <;> split <;> simp

/-- Core induction for C2: starting from a state whose `last_jump_time` is at
most every upcoming timestamp, over any non-decreasing observation sequence
the emitted trigger timestamps are pairwise more than `JUMP_COOLDOWN` apart
and all lie more than `JUMP_COOLDOWN` after the starting `last_jump_time`. -/
theorem detectEvents_separated (obs : List (Int × Nat)) (s : AccState)
    (hmono : List.Pairwise (fun a b : Int × Nat => a.2 ≤ b.2) obs)
    (hfirst : ∀ o ∈ obs, s.last_jump_time ≤ o.2) :
    List.Pairwise (fun a b : Nat => a + JUMP_COOLDOWN < b) (detectEvents s obs) ∧
    ∀ e ∈ detectEvents s obs, s.last_jump_time + JUMP_COOLDOWN < e := by
  induction obs generalizing s with
  | nil => simp [detectEvents]
  | cons o rest ih =>
    rw [List.pairwise_cons] at hmono
    have hso : s.last_jump_time ≤ o.2 := hfirst o (by simp)
    rw [detectEvents]
    rcases hfire : (detectJump s o.1 o.2).2 with _ | _
    · -- no event on this observation
      have hlast : (detectJump s o.1 o.2).1.last_jump_time = s.last_jump_time :=
        (detectJump_last s o.1 o.2).2 hfire
      simp only [hfire, if_false, Bool.false_eq_true]
      have := ih (detectJump s o.1 o.2).1 hmono.2 (fun o' ho' => by
        rw [hlast]; exact hfirst o' (List.mem_cons_of_mem _ ho'))
      rw [hlast] at this
      simpa using this
    · -- event emitted at time o.2
      have hfired := (detectJump_last s o.1 o.2).1 hfire
      have hgap : s.last_jump_time + JUMP_COOLDOWN < o.2 :=
        elapsedU32_gap o.2 s.last_jump_time hso hfired.2.2
      have htail := ih (detectJump s o.1 o.2).1 hmono.2 (fun o' ho' => by
        rw [hfired.2.1]; exact hmono.1 o' ho')
      rw [hfired.2.1] at htail
      simp only [hfire, if_true]
      constructor
      · rw [List.pairwise_cons]
        exact ⟨fun e he => by have := htail.2 e he; omega, htail.1⟩
      · intro e he
        rcases List.mem_cons.mp he with he | he
        · omega
        · have := htail.2 e he
          omega

/-- C2: over every observation sequence with monotonically non-decreasing
timestamps, the detector (run from its initial state) never emits two jump
events whose trigger timestamps differ by less than `JUMP_COOLDOWN` ms. -/
theorem C2_cooldown_separation (obs : List (Int × Nat))
    (hmono : List.Pairwise (fun a b : Int × Nat => a.2 ≤ b.2) obs) :
    List.Pairwise (fun a b : Nat => ¬ (b - a < JUMP_COOLDOWN)) (detectEvents initAcc obs) := by
  have h := detectEvents_separated obs initAcc hmono (fun o _ => Nat.zero_le _)
  exact h.1.imp (fun hab => by omega)

/-- C2 witness: a concrete run with two emitted events 600 ms apart. -/
theorem C2_cooldown_separation_witness :
    List.Pairwise (fun a b : Nat => ¬ (b - a < JUMP_COOLDOWN))
      (detectEvents initAcc [(100, 600), (50, 700), (100, 1200)]) :=
  C2_cooldown_separation [(100, 600), (50, 700), (100, 1200)] (by decide)

/-! ## C9: the reset's frame effect and peak re-accumulation -/

/-- C9: `resetPeakAcceleration` zeroes the peak and changes nothing else;
after the orchestrator's post-event processing the detector is still Active
with peak 0; and from an Active state with peak 0 an above-threshold sample
sets the peak to that sample (re-accumulating from 0, not from the trigger
value). -/
theorem C9_reset_frame :
    (∀ s : AccState,
      (resetPeakAcceleration s).peak_acceleration = 0 ∧
      (resetPeakAcceleration s).is_jumping = s.is_jumping ∧
      (resetPeakAcceleration s).last_jump_time = s.last_jump_time) ∧
    (∀ (s : AccState) (z : Int) (now : Nat),
      (updateStep s z now).2.isSome = true →
        (updateStep s z now).1.is_jumping = true ∧
        (updateStep s z now).1.peak_acceleration = 0) ∧
    (∀ (s : AccState) (z : Int) (now : Nat),
      s.is_jumping = true → s.peak_acceleration = 0 → JUMP_THRESHOLD < absInt16 z →
        (detectJump s z now).1.peak_acceleration = absInt16 z ∧
        (detectJump s z now).1.is_jumping = true) := by
  refine ⟨fun s => ⟨rfl, rfl, rfl⟩, ?_, ?_⟩
  · intro s z now h
    simp only [updateStep] at *
    rcases hfire : (detectJump s z now).2 with _ | _
    · rw [hfire] at h
      simp at h
    · have hj := ((detectJump_last s z now).1 hfire).1
      simp [hfire, resetPeakAcceleration, hj]
  · intro s z now hj hp hz
    simp only [detectJump]
    split
    · rename_i h
      rw [hj] at h
      simp at h
    · split <;> split <;> simp_all [JUMP_THRESHOLD] <;> omega

/-- C9 witness: from a concrete Active state with peak 0 (the state right
after the orchestrator's post-event reset), the sample 150 re-accumulates the
peak to 150. -/
theorem C9_reset_frame_witness :
    (detectJump { peak_acceleration := 0, is_jumping := true, last_jump_time := 800 }
      150 900).1.peak_acceleration = absInt16 150 :=
  (C9_reset_frame.2.2 { peak_acceleration := 0, is_jumping := true, last_jump_time := 800 }
    150 900 rfl rfl (by decide)).1

/-! ## C7: playSound with an out-of-range index -/

/-- C7 counterexample: `playSound` with index 8 (= `SCALE_SIZE`) does return
the invalid-index outcome and touches no storage, but it DOES operate the
audio device: `resetAudioPlayer` (a device stop followed by a device start)
runs before the index validation. -/
theorem C7_device_touched_counterexample :
    (playSound envA 8 0).2 = PlayOutcome.invalidIndex ∧
    (playSound envA 8 0).1 = [AudioAct.devStop, AudioAct.devStart] ∧
    AudioAct.devStop ∈ (playSound envA 8 0).1 := by
  decide

/-- C7 (amended): for every environment and every index outside
`[0, SCALE_SIZE - 1]`, `playSound` fails with the invalid-index outcome and
performs no storage operation (no parse, no open, no read) — but not no device
operation: its trace is exactly the `resetAudioPlayer` stop/start pair, which
runs before the validation. -/
theorem C7_invalid_index (env : AudioEnv) (idx : Int) (fuel : Nat)
    (h : idx < 0 ∨ SCALE_SIZE ≤ idx) :
    (playSound env idx fuel).2 = PlayOutcome.invalidIndex ∧
    (playSound env idx fuel).1 = resetAudioPlayer := by
  simp [playSound, h]

/-- C7 witness: the amended statement at index 8. -/
theorem C7_invalid_index_witness :
    (playSound envA 8 0).2 = PlayOutcome.invalidIndex ∧
    (playSound envA 8 0).1 = resetAudioPlayer :=
  C7_invalid_index envA 8 0 (Or.inr (by decide))

/-! ## C8: the streaming loop's exit protocol -/

/-- Structure of the actions emitted by the streaming loop: only reads and
writes, at file positions at least the starting cursor, with strictly
increasing read positions and strictly increasing write positions (no chunk is
ever re-read or re-written), and never a device start. -/
theorem streamLoop_acts (reads : Nat → Nat) (writes : Nat → Bool) :
    ∀ (fuel remain k pos : Nat),
      (∀ a ∈ (streamLoop reads writes fuel remain k pos).1,
        (∃ p n, a = AudioAct.read p n) ∨ ∃ p n, a = AudioAct.write p n) ∧
      (∀ q ∈ readPositions (streamLoop reads writes fuel remain k pos).1, pos ≤ q) ∧
      (∀ q ∈ writePositions (streamLoop reads writes fuel remain k pos).1, pos ≤ q) ∧
      List.Pairwise (· < ·) (readPositions (streamLoop reads writes fuel remain k pos).1) ∧
      List.Pairwise (· < ·) (writePositions (streamLoop reads writes fuel remain k pos).1) ∧
      (streamLoop reads writes fuel remain k pos).1.count AudioAct.devStart = 0 := by
  intro fuel
  induction fuel with
  | zero =>
    intro remain k pos
    rw [streamLoop]
    split <;> simp [readPositions, writePositions]
  | succ fuel ih =>
    intro remain k pos
    rw [streamLoop]
    by_cases h0 : remain = 0
    · simp [h0, readPositions, writePositions]
    · rw [if_neg h0]
      by_cases hz : reads k % U32 = 0
      · simp [hz, readPositions, writePositions]
      · rw [if_neg hz]
        by_cases hw : writes k = false
        · simp [hw, readPositions, writePositions]
        · rw [if_neg hw]
          have hn1 : 1 ≤ reads k % U32 := Nat.one_le_iff_ne_zero.mpr hz
          have hr := ih ((remain + U32 - reads k % U32) % U32) (k + 1) (pos + reads k % U32)
          refine ⟨?_, ?_, ?_, ?_, ?_, ?_⟩
          · intro a ha
            simp only [List.mem_cons] at ha
            rcases ha with ha | ha | ha
            · exact Or.inl ⟨pos, reads k % U32, ha⟩
            · exact Or.inr ⟨pos, reads k % U32, ha⟩
            · exact hr.1 a ha
          · intro q hq
            simp only [readPositions, List.filterMap_cons] at hq
            simp only [List.mem_cons] at hq
            rcases hq with hq | hq
            · omega
            · have := hr.2.1 q hq
              omega
          · intro q hq
            simp only [writePositions, List.filterMap_cons] at hq
            simp only [List.mem_cons] at hq
            rcases hq with hq | hq
            · omega
            · have := hr.2.2.1 q hq
              omega
          · simp only [readPositions, List.filterMap_cons]
            rw [List.pairwise_cons]
            exact ⟨fun q hq => by have := hr.2.1 q hq; omega, hr.2.2.2.1⟩
          · simp only [writePositions, List.filterMap_cons]
            rw [List.pairwise_cons]
            exact ⟨fun q hq => by have := hr.2.2.1 q hq; omega, hr.2.2.2.2.1⟩
          · have hc := hr.2.2.2.2.2
            simp [List.count_cons, hc]

/-- C8: for every complete execution of the streaming loop — success, read
error, or write error — `playWavFile`'s trace performs the device start
exactly once, positioned after the whole loop (whose actions are only chunk
reads and writes, each chunk touched at most once — strictly increasing file
positions, so nothing is retried), and closes the asset handle afterwards:
a mid-stream failure truncates the remainder and still leaves the device
started. -/
theorem C8_start_once_after_loop (reads : Nat → Nat) (writes : Nat → Bool)
    (off size fuel : Nat)
    (_h : (playWavFile reads writes off size fuel).2 ≠ StreamRes.outOfFuel) :
    (playWavFile reads writes off size fuel).1.count AudioAct.devStart = 1 ∧
    ∃ mid,
      (playWavFile reads writes off size fuel).1 =
        [AudioAct.seek off, AudioAct.devStop] ++ mid ++ [AudioAct.devStart, AudioAct.close] ∧
      (∀ a ∈ mid, (∃ p n, a = AudioAct.read p n) ∨ ∃ p n, a = AudioAct.write p n) ∧
      List.Pairwise (· < ·) (readPositions mid) ∧
      List.Pairwise (· < ·) (writePositions mid) := by
  have hl := streamLoop_acts reads writes fuel (size % U32) 0 off
  constructor
  · simp only [playWavFile, List.count_append, List.count_cons, List.count_nil]
    have hc := hl.2.2.2.2.2
    simp [hc]
  · refine ⟨(streamLoop reads writes fuel (size % U32) 0 off).1, ?_, hl.1, hl.2.2.2.1, hl.2.2.2.2.1⟩
    simp [playWavFile]

/-- C8 witness: a concrete run ending in a read error still counts exactly one
device start. -/
theorem C8_start_once_after_loop_witness :
    (playWavFile zeroReads okWrites 44 5 6).1.count AudioAct.devStart = 1 :=
  (C8_start_once_after_loop zeroReads okWrites 44 5 6 (by decide)).1

/-! ## C10: termination of the streaming loop and the wrap hazard -/

/-- Shifting the remainder recurrence by one read. -/
theorem remAt_shift (reads : Nat → Nat) (remain k : Nat) (j : Nat) :
    remAt reads (remain - reads k % U32) (k + 1) j = remAt reads remain k (j + 1) := by
  induction j with
  | zero =>
    show remain - reads k % U32 = remAt reads remain k 0 - reads (k + 0) % U32
    simp [remAt]
  | succ j ih =>
    show remAt reads (remain - reads k % U32) (k + 1) j - reads (k + 1 + j) % U32
        = remAt reads remain k (j + 1) - reads (k + (j + 1)) % U32
    rw [ih]
    have he : k + 1 + j = k + (j + 1) := by omega
    rw [he]

/-- Termination of the streaming loop: if every read returns at most the
remaining byte count, then fuel `remain + 1` (indeed any fuel above the
initial remainder) suffices — the run never ends in `outOfFuel`. -/
theorem streamLoop_terminates (reads : Nat → Nat) (writes : Nat → Bool) :
    ∀ (fuel remain k pos : Nat), remain < U32 → remain < fuel →
      (∀ j, reads (k + j) % U32 ≤ remAt reads remain k j) →
      (streamLoop reads writes fuel remain k pos).2 ≠ StreamRes.outOfFuel := by
  intro fuel
  induction fuel with
  | zero =>
    intro remain k pos h1 h2 hpre
    omega
  | succ fuel ih =>
    intro remain k pos h1 h2 hpre
    rw [streamLoop]
    by_cases h0 : remain = 0
    · simp [h0]
    · rw [if_neg h0]
      by_cases hz : reads k % U32 = 0
      · simp [hz]
      · rw [if_neg hz]
        have hle : reads k % U32 ≤ remain := by
          have := hpre 0
          simpa [remAt] using this
        have hrem : (remain + U32 - reads k % U32) % U32 = remain - reads k % U32 := by
          simp only [U32] at *
          omega
        by_cases hw : writes k = false
        · simp [hw]
        · rw [if_neg hw]
          have hnext := ih (remain - reads k % U32) (k + 1) (pos + reads k % U32)
            (by omega) (by omega)
            (fun j => by
              rw [remAt_shift]
              have he : k + 1 + j = k + (j + 1) := by omega
              rw [he]
              exact hpre (j + 1))
          rw [hrem]
          exact hnext

/-- C10: the chunked streaming loop terminates for every asset under the
precondition that each read returns at most the remaining byte count (the
`uint32_t` counter then never wraps and strictly decreases until it reaches 0,
a zero-byte read, or a failed write); and if a read DOES return more bytes
than remain (1024-byte read against a 100-byte remainder), the counter wraps
modulo 2^32 and the loop does not stop at the payload boundary — it issues a
further read. -/
theorem C10_loop_termination_and_wrap :
    (∀ (reads : Nat → Nat) (writes : Nat → Bool) (remain k pos fuel : Nat),
      remain < U32 → remain < fuel →
      (∀ j, reads (k + j) % U32 ≤ remAt reads remain k j) →
      (streamLoop reads writes fuel remain k pos).2 ≠ StreamRes.outOfFuel) ∧
    (streamLoop wrapReads okWrites 10 100 0 0).1 =
      [AudioAct.read 0 1024, AudioAct.write 0 1024, AudioAct.read 1024 0] ∧
    (streamLoop wrapReads okWrites 10 100 0 0).2 = StreamRes.readError := by
  refine ⟨?_, by decide, by decide⟩
  intro reads writes remain k pos fuel
  exact streamLoop_terminates reads writes fuel remain k pos

/-- C10 witness: a concrete in-bounds run (immediate end-of-file) terminates
without exhausting fuel. -/
theorem C10_loop_termination_and_wrap_witness :
    (streamLoop zeroReads okWrites 6 5 0 0).2 ≠ StreamRes.outOfFuel :=
  C10_loop_termination_and_wrap.1 zeroReads okWrites 5 0 0 6 (by decide) (by decide)
    (fun j => by simp [zeroReads])
